import Mathlib

/-!
# Verification of the MCP stdio client / server-manager core

Shallow embedding of the request-correlation client and the server registry
from `mcp_manager.py` (`FixedMCPClient`, `FixedMCPServerManager`) and
`app.py` (`MCPClient`, `EnhancedMCPServerManager`), together with proofs
about the wire format, identifier allocation, message-reader behaviour,
error handling and registry state transitions.

Conventions of the embedding:
* Python dicts parsed from / serialized to JSON are modelled by the `Json`
  inductive below; JSON numbers are modelled as integers (every numeric
  field exchanged by this protocol — ids, error codes, counts — is an
  integer).
* Byte streams and strings on the wire are modelled as `List Char`.
* A Python function that can raise is modelled with `Except String α`,
  the `String` being `str(exception)`.
* The response queue filled by the background reader thread is modelled as
  the list of messages available to the polling loop; the poll budget
  (one `Queue.get(timeout=1)` per elapsed second, bounded by the call's
  `timeout`) is the fuel of the loop.
-/

namespace MCP

/-- JSON values as produced by `json.loads` / consumed by `json.dumps`
(numbers restricted to integers, see module docstring). -/
inductive Json where
  | null
  | bool (b : Bool)
  | num (n : Int)
  | str (s : String)
  | arr (xs : List Json)
  | obj (kvs : List (String × Json))

/-- Named control / punctuation characters, to keep character literals simple. -/
def nlC : Char := Char.ofNat 10

def crC : Char := Char.ofNat 13

def tabC : Char := Char.ofNat 9

def bspC : Char := Char.ofNat 8

def ffC : Char := Char.ofNat 12

def bsC : Char := Char.ofNat 92

def qC : Char := Char.ofNat 34

def lbC : Char := Char.ofNat 123

def rbC : Char := Char.ofNat 125

def sqC : Char := Char.ofNat 39

/-- Hexadecimal digit character (lowercase), as used in `\uXXXX` escapes. -/
def hexDigit (n : Nat) : Char :=
  if n < 10 then Char.ofNat (48 + n) else Char.ofNat (87 + n)

/-- How `json.dumps` renders one character inside a string literal. -/
def escapeChar (c : Char) : List Char :=
  if c = qC then [bsC, qC]
  else if c = bsC then [bsC, bsC]
  else if c = nlC then [bsC, 'n']
  else if c = crC then [bsC, 'r']
  else if c = tabC then [bsC, 't']
  else if c = bspC then [bsC, 'b']
  else if c = ffC then [bsC, 'f']
  else if c.toNat < 32 then [bsC, 'u', '0', '0', hexDigit (c.toNat / 16), hexDigit (c.toNat % 16)]
  else [c]

/-- `json.dumps` of a string: quoted, characters escaped. -/
def dumpsStr (s : List Char) : List Char :=
  qC :: (s.map escapeChar).flatten ++ [qC]

/-- Decimal digit character. -/
def digitChar (d : Nat) : Char := Char.ofNat (48 + d)

/-- Decimal digits of a positive natural, most significant first (fuel-driven). -/
def natDigitsAux : Nat → Nat → List Char
  | 0, _ => []
  | _ + 1, 0 => []
  | fuel + 1, n + 1 => natDigitsAux fuel ((n + 1) / 10) ++ [digitChar ((n + 1) % 10)]

/-- Decimal rendering of a natural number. -/
def natChars (n : Nat) : List Char :=
  if n = 0 then [digitChar 0] else natDigitsAux n n

/-- Decimal rendering of an integer (Python `str(int)` / `json.dumps(int)`). -/
def intChars (i : Int) : List Char :=
  if i < 0 then '-' :: natChars i.natAbs else natChars i.natAbs

mutual

/-- `json.dumps` with its default separators (`", "` and `": "`). -/
def dumps : Json → List Char
  | Json.null => ['n', 'u', 'l', 'l']
  | Json.bool true => ['t', 'r', 'u', 'e']
  | Json.bool false => ['f', 'a', 'l', 's', 'e']
  | Json.num i => intChars i
  | Json.str s => dumpsStr s.toList
  | Json.arr xs => ['['] ++ dumpsArr xs ++ [']']
  | Json.obj kvs => [lbC] ++ dumpsMembers kvs ++ [rbC]

/-- Array elements joined by `", "`. -/
def dumpsArr : List Json → List Char
  | [] => []
  | [x] => dumps x
  | x :: y :: xs => dumps x ++ [',', ' '] ++ dumpsArr (y :: xs)

/-- Object members `"key": value` joined by `", "`. -/
def dumpsMembers : List (String × Json) → List Char
  | [] => []
  | [kv] => dumpsStr kv.1.toList ++ [':', ' '] ++ dumps kv.2
  | kv :: kv2 :: kvs =>
      dumpsStr kv.1.toList ++ [':', ' '] ++ dumps kv.2 ++ [',', ' '] ++
        dumpsMembers (kv2 :: kvs)

end

/-! ## Json accessors (Python `dict` operations on parsed messages) -/

/-- `d.get(key)` / `d[key]` on an object; `none` on a non-object
(where Python would raise `AttributeError`, handled at each use site). -/
def Json.lookup : Json → String → Option Json
  | Json.obj kvs, key => kvs.lookup key
  | _, _ => none

/-- The keys of an object, in insertion order. -/
def Json.keys : Json → List String
  | Json.obj kvs => kvs.map Prod.fst
  | _ => []

/-- `isinstance(x, dict)`. -/
def Json.isObj : Json → Bool
  | Json.obj _ => true
  | _ => false

/-- `response.get("id") == rid` for an object `response` (Python `==`
also equates `bool` with `0`/`1` since `bool` is an `int` subclass). -/
def Json.idEq (j : Json) (rid : Nat) : Bool :=
  match j with
  | Json.obj kvs =>
    match kvs.lookup "id" with
    | some (Json.num n) => n == (rid : Int)
    | some (Json.bool b) => (if b then (1 : Int) else 0) == (rid : Int)
    | _ => false
  | _ => false

/-! ## Python `str()` rendering, used by f-string error formatting -/

/-- Single-character strings used to render Python `repr` without brace or
quote literals in the source text. -/
def lbS : String := String.singleton lbC

def rbS : String := String.singleton rbC

def sqS : String := String.singleton sqC

/-- Comma-separated concatenation (Python `", ".join`). -/
def commaSep : List String → String
  | [] => ""
  | [s] => s
  | s :: s2 :: ss => s ++ ", " ++ commaSep (s2 :: ss)

mutual

/-- Python `repr()` of a JSON-parsed value (modulo string-escape corner
cases inside `repr` of strings, which this protocol never exercises). -/
def pyRepr : Json → String
  | Json.null => "None"
  | Json.bool true => "True"
  | Json.bool false => "False"
  | Json.num i => String.mk (intChars i)
  | Json.str s => sqS ++ s ++ sqS
  | Json.arr xs => "[" ++ commaSep (pyReprArr xs) ++ "]"
  | Json.obj kvs => lbS ++ commaSep (pyReprMembers kvs) ++ rbS

def pyReprArr : List Json → List String
  | [] => []
  | x :: xs => pyRepr x :: pyReprArr xs

def pyReprMembers : List (String × Json) → List String
  | [] => []
  | kv :: kvs => (sqS ++ kv.1 ++ sqS ++ ": " ++ pyRepr kv.2) :: pyReprMembers kvs

end

/-- Python `str()` of a JSON-parsed value, as interpolated by f-strings. -/
def pyStr : Json → String
  | Json.str s => s
  | j => pyRepr j

/-! ## Request construction and the send path (`FixedMCPClient._send_request`) -/

/-- The `tools/call` request envelope built by `call_tool`
(`mcp_manager.py` lines 141–149, identically `app.py` lines 89–97). -/
def mkToolCallRequest (rid : Nat) (toolName : String) (arguments : Json) : Json :=
  Json.obj [("jsonrpc", Json.str "2.0"),
            ("id", Json.num (rid : Int)),
            ("method", Json.str "tools/call"),
            ("params", Json.obj [("name", Json.str toolName),
                                 ("arguments", arguments)])]

/-- The `initialize` handshake request (`mcp_manager.py` lines 53–70). -/
def initializeRequest : Json :=
  Json.obj [("jsonrpc", Json.str "2.0"),
            ("id", Json.num 0),
            ("method", Json.str "initialize"),
            ("params", Json.obj
              [("protocolVersion", Json.str "2024-11-05"),
               ("capabilities", Json.obj
                 [("roots", Json.obj [("listChanged", Json.bool true)]),
                  ("sampling", Json.obj [])]),
               ("clientInfo", Json.obj
                 [("name", Json.str "meeting-agents-client"),
                  ("version", Json.str "1.0.0")])])]

/-- The `initialized` notification (`mcp_manager.py` lines 76–79). -/
def initializedNotification : Json :=
  Json.obj [("jsonrpc", Json.str "2.0"),
            ("method", Json.str "notifications/initialized")]

/-- `request_json = json.dumps(request) + "\n"` — the single string handed
to the one `stdin.write` call in `_send_request`. -/
def sendLine (req : Json) : List Char :=
  dumps req ++ [nlC]

/-- `str()` of the `BrokenPipeError` raised when the child's stdin is closed. -/
def brokenPipeMsg : String := "[Errno 32] Broken pipe"

/-- `str()` of the `AttributeError` raised by `response.get` when a queued
message is not a dict. -/
def attrErrMsg : String :=
  "'int' object has no attribute " ++ sqS ++ "get" ++ sqS

/-! ## Argument normalization (`arguments` parameter handling) -/

/-- `FixedMCPClient.call_tool` (`mcp_manager.py` 138–139) and
`FixedMCPServerManager.call_server_tool` (372–373): only `None` is
replaced by `\x7b\x7d`. -/
def fixedNormalizeArgs : Option Json → Json
  | none => Json.obj []
  | some a => a

/-- `MCPClient.call_tool` (`app.py` 81–87) and
`EnhancedMCPServerManager.call_server_tool` (289–295): `None` and any
non-`dict` value are replaced by `\x7b\x7d`. -/
def mcpNormalizeArgs : Option Json → Json
  | none => Json.obj []
  | some a => if a.isObj then a else Json.obj []

/-! ## Result dictionaries returned by `call_tool` -/

/-- `\x7b"error": msg\x7d`. -/
def errObj (msg : String) : Json :=
  Json.obj [("error", Json.str msg)]

/-- `\x7b"error": f"Communication error: \x7bstr(e)\x7d"\x7d` — built by the
`except Exception` handler inside `call_tool` itself. -/
def commErrorObj (e : String) : Json :=
  errObj ("Communication error: " ++ e)

/-- `f"MCP Error \x7berror_code\x7d: \x7berror_message\x7d"`. -/
def mcpErrorString (code msg : Json) : String :=
  "MCP Error " ++ pyStr code ++ ": " ++ pyStr msg

/-- `f"Timeout waiting for response after \x7btimeout\x7ds"`. -/
def timeoutString (timeout : Nat) : String :=
  "Timeout waiting for response after " ++ String.mk (natChars timeout) ++ "s"

/-! ## The request correlator (`FixedMCPClient`) -/

/-- Mutable client state: `self.request_id`, set to `0` in `__init__`. -/
structure ClientState where
  requestId : Nat

/-- Initial `request_id` (constructor, `mcp_manager.py` line 37). -/
def initialClientState : ClientState := ⟨0⟩

/-- Observable events of one `call_tool` invocation: lock operations,
identifier allocation, the stdin write/flush, and queue traffic. -/
inductive Ev where
  | lockAcquire
  | lockRelease
  | allocId (rid : Nat)
  | writeStdin (line : List Char)
  | flushStdin
  | queueGetEmpty
  | queueGet (resp : Json)
  | queuePutBack (resp : Json)

def Ev.isWrite : Ev → Bool
  | Ev.writeStdin _ => true
  | _ => false

def Ev.isFlush : Ev → Bool
  | Ev.flushStdin => true
  | _ => false

def Ev.isQueueGet : Ev → Bool
  | Ev.queueGet _ => true
  | _ => false

def Ev.isLockRelease : Ev → Bool
  | Ev.lockRelease => true
  | _ => false

/-- Queue-side events (the only events the polling loop produces). -/
def Ev.isQueueEv : Ev → Bool
  | Ev.queueGetEmpty => true
  | Ev.queueGet _ => true
  | Ev.queuePutBack _ => true
  | _ => false

/-- Outcome of the response-polling loop in `call_tool`. -/
inductive WaitResult where
  | matched (resp : Json)
  | remoteError (code msg : Json)
  | pyError (e : String)
  | timeout

/-- The polling loop of `FixedMCPClient.call_tool` (`mcp_manager.py`
lines 154–178), with its event trace.  One unit of fuel is one iteration
(`Queue.get(timeout=1)`), so the fuel is the call's timeout in seconds.
An empty queue yields `Empty` and the loop retries; a message whose `id`
equals `rid` is consumed (split into the error-payload and success cases
of lines 161–169); any other message is put back on the queue (line 172);
a non-dict message makes `response.get` raise `AttributeError`, which
escapes the loop. -/
def waitLoopT (rid : Nat) : Nat → List Json → WaitResult × List Ev
  | 0, _ => (WaitResult.timeout, [])
  | fuel + 1, [] =>
    let t := waitLoopT rid fuel []
    (t.1, Ev.queueGetEmpty :: t.2)
  | fuel + 1, resp :: rest =>
    match resp with
    | Json.obj kvs =>
      if Json.idEq (Json.obj kvs) rid then
        match kvs.lookup "error" with
        | some (Json.obj ekvs) =>
          (WaitResult.remoteError ((ekvs.lookup "code").getD (Json.num (-32603)))
            ((ekvs.lookup "message").getD (Json.str "Unknown error")),
           [Ev.queueGet resp])
        | some _ => (WaitResult.pyError attrErrMsg, [Ev.queueGet resp])
        | none => (WaitResult.matched resp, [Ev.queueGet resp])
      else
        let t := waitLoopT rid fuel (rest ++ [resp])
        (t.1, Ev.queueGet resp :: Ev.queuePutBack resp :: t.2)
    | _ => (WaitResult.pyError attrErrMsg, [Ev.queueGet resp])

/-- Result of one `call_tool` invocation.  `result` is `Except.error e`
exactly when a Python exception would escape `call_tool` to its caller. -/
structure CallRun where
  result : Except String Json
  finalState : ClientState
  trace : List Ev

/-- `FixedMCPClient.call_tool` (`mcp_manager.py` lines 133–182).  The whole
body runs under `with self.lock:`.  The identifier is allocated
(`self.request_id += 1`), `None` arguments are normalized, the request is
built and sent (one write of `sendLine` plus a flush — or a
`BrokenPipeError` re-raised by `_send_request` when the pipe is broken),
the polling loop runs, and the trailing `except Exception` converts any
raised exception into a `\x7b"error": ...\x7d` result. -/
def callToolE (st : ClientState) (toolName : String) (arguments : Option Json)
    (timeout : Nat) (stdinBroken : Bool) (queue : List Json) : CallRun :=
  let rid := st.requestId + 1
  let args := fixedNormalizeArgs arguments
  let req := mkToolCallRequest rid toolName args
  let body : Except String Json × List Ev :=
    if stdinBroken then (Except.error brokenPipeMsg, [])
    else
      let w := waitLoopT rid timeout queue
      let res : Except String Json :=
        match w.1 with
        | WaitResult.matched resp => Except.ok resp
        | WaitResult.remoteError c m => Except.ok (errObj (mcpErrorString c m))
        | WaitResult.pyError e => Except.error e
        | WaitResult.timeout => Except.ok (errObj (timeoutString timeout))
      (res, Ev.writeStdin (sendLine req) :: Ev.flushStdin :: w.2)
  let final : Except String Json :=
    match body.1 with
    | Except.error e => Except.ok (commErrorObj e)
    | Except.ok r => Except.ok r
  ⟨final, ⟨rid⟩, Ev.lockAcquire :: Ev.allocId rid :: body.2 ++ [Ev.lockRelease]⟩

/-! ## The app-level client (`MCPClient`, `app.py`) -/

/-- The polling loop of `MCPClient.call_tool` (`app.py` lines 110–125).
Same matching as `waitLoopT`, but there is no `else` branch: a message
for a different identifier is silently dropped, not re-enqueued. -/
def appWaitLoop (rid : Nat) : Nat → List Json → WaitResult
  | 0, _ => WaitResult.timeout
  | fuel + 1, [] => appWaitLoop rid fuel []
  | fuel + 1, resp :: rest =>
    match resp with
    | Json.obj kvs =>
      if Json.idEq (Json.obj kvs) rid then
        match kvs.lookup "error" with
        | some (Json.obj ekvs) =>
          WaitResult.remoteError ((ekvs.lookup "code").getD (Json.num (-32603)))
            ((ekvs.lookup "message").getD (Json.str "Unknown error"))
        | some _ => WaitResult.pyError attrErrMsg
        | none => WaitResult.matched resp
      else appWaitLoop rid fuel rest
    | _ => WaitResult.pyError attrErrMsg

/-- `MCPClient.call_tool` (`app.py` lines 72–132): no lock, `None` and
non-dict arguments both normalized, send and poll inside one
`try`/`except Exception` which converts any exception into a
`\x7b"error": ...\x7d` result. -/
def appCallToolE (st : ClientState) (toolName : String) (arguments : Option Json)
    (timeout : Nat) (stdinBroken : Bool) (queue : List Json) :
    Except String Json × ClientState :=
  let rid := st.requestId + 1
  let args := mcpNormalizeArgs arguments
  let _req := mkToolCallRequest rid toolName args
  let body : Except String Json :=
    if stdinBroken then Except.error brokenPipeMsg
    else
      match appWaitLoop rid timeout queue with
      | WaitResult.matched resp => Except.ok resp
      | WaitResult.remoteError c m => Except.ok (errObj (mcpErrorString c m))
      | WaitResult.pyError e => Except.error e
      | WaitResult.timeout => Except.ok (errObj (timeoutString timeout))
  (match body with
   | Except.error e => Except.ok (commErrorObj e)
   | Except.ok r => Except.ok r,
   ⟨rid⟩)

/-! ## The framed message reader (`FixedMCPClient._read_responses`) -/

/-- Python whitespace, as stripped by `str.strip()`. -/
def isPySpace (c : Char) : Bool :=
  c = ' ' || c = tabC || c = nlC || c = crC || c = ffC || c = Char.ofNat 11

/-- `line.strip()`. -/
def stripChars (l : List Char) : List Char :=
  (l.dropWhile isPySpace).reverse.dropWhile isPySpace |>.reverse

/-- `buffer.split("\n", 1)`: the text before the first newline and the
remainder after it, or `none` when the buffer holds no newline. -/
def splitFirstNewline : List Char → Option (List Char × List Char)
  | [] => none
  | c :: cs =>
    if c = nlC then some ([], cs)
    else
      match splitFirstNewline cs with
      | some (l, r) => some (c :: l, r)
      | none => none

/-- Handling of one stripped candidate line (`mcp_manager.py` lines
104–113): empty lines are skipped, valid JSON is published, a
`JSONDecodeError` is logged and the line discarded.  `loads` abstracts
`json.loads`: `some` on valid JSON input, `none` on a parse failure. -/
def lineResult (loads : List Char → Option Json) (l : List Char) : Option Json :=
  let s := stripChars l
  if s = [] then none else loads s

/-- One pass of the inner `while "\n" in buffer` loop (`mcp_manager.py`
lines 102–113), fuel-driven: each iteration strictly shrinks the buffer
(`splitFirstNewline_length`), so any fuel of at least the buffer length
runs the loop to completion. -/
def handleBufferAux (loads : List Char → Option Json) :
    Nat → List Char → List Json × List Char
  | 0, b => ([], b)
  | fuel + 1, b =>
    match splitFirstNewline b with
    | none => ([], b)
    | some (line, rest) =>
      let res := handleBufferAux loads fuel rest
      ((lineResult loads line).toList ++ res.1, res.2)

/-- The inner `while "\n" in buffer` loop (`mcp_manager.py` lines
102–113): extract every complete line from the buffer, publish the parse
results, and keep the unterminated remainder buffered. -/
def handleBuffer (loads : List Char → Option Json) (b : List Char) :
    List Json × List Char :=
  handleBufferAux loads b.length b

/-- The reader loop of `FixedMCPClient._read_responses` (`mcp_manager.py`
lines 87–120) over the whole character stream produced by the child
before it dies: read one character, append it to the buffer, drain
complete lines.  The published messages, in order. -/
def readResponses (loads : List Char → Option Json) :
    List Char → List Char → List Json
  | [], _ => []
  | c :: cs, buf =>
    let hb := handleBuffer loads (buf ++ [c])
    hb.1 ++ readResponses loads cs hb.2

/-- The newline-terminated lines of a stream (any trailing unterminated
text yields no line), with `acc` the text already buffered. -/
def completeLines : List Char → List Char → List (List Char)
  | [], _ => []
  | c :: cs, acc =>
    if c = nlC then acc :: completeLines cs [] else completeLines cs (acc ++ [c])

/-- The reader loop of `MCPClient._read_responses` (`app.py` lines 56–70),
which consumes whole lines via `readline()`: non-empty lines are stripped
and parsed, parse failures are printed and skipped. -/
def appReadResponses (loads : List Char → Option Json) :
    List (List Char) → List Json
  | [] => []
  | l :: ls =>
    (if l = [] then []
     else
       match loads (stripChars l) with
       | some r => [r]
       | none => []) ++ appReadResponses loads ls

/-! ## The server registry (`FixedMCPServerManager` / `EnhancedMCPServerManager`) -/

/-- The per-server record kept in `self.servers` (process handle fields
that the status path reads: `poll()`-liveness, pid, start time). -/
structure ServerInfo where
  procAlive : Bool
  procPid : Nat
  startedAtIso : String
  startedAt : Int

/-- Manager state: `self.servers` (a dict, so keys are unique) and the
key set of `self.clients`. -/
structure ManagerState where
  servers : List (String × ServerInfo)
  clients : List String

/-- `_cleanup_server` (`mcp_manager.py` lines 326–343): terminates the
process and deletes the entry from `self.servers`.  `self.clients` is not
touched. -/
def cleanupServer (st : ManagerState) (name : String) : ManagerState :=
  { st with servers := st.servers.eraseP (fun p => p.1 == name) }

/-- The not-running status dict `\x7b"status": "stopped", "running": False\x7d`. -/
def stoppedObj : Json :=
  Json.obj [("status", Json.str "stopped"), ("running", Json.bool false)]

/-- `FixedMCPServerManager.get_server_status` (`mcp_manager.py` lines
345–365): untracked names report stopped; a tracked dead process is
cleaned up and reported stopped; a live process reports pid, start time
and uptime. -/
def getServerStatus (now : Int) (st : ManagerState) (name : String) :
    Json × ManagerState :=
  match st.servers.lookup name with
  | none => (stoppedObj, st)
  | some info =>
    if info.procAlive then
      (Json.obj [("status", Json.str "running"),
                 ("running", Json.bool true),
                 ("pid", Json.num (info.procPid : Int)),
                 ("started_at", Json.str info.startedAtIso),
                 ("uptime_seconds", Json.num (now - info.startedAt))], st)
    else
      (stoppedObj, cleanupServer st name)

/-- `EnhancedMCPServerManager.get_server_status` (`app.py` lines 262–277):
reports liveness but never removes a dead entry. -/
def enhancedGetServerStatus (now : Int) (st : ManagerState) (name : String) :
    Json × ManagerState :=
  match st.servers.lookup name with
  | none => (stoppedObj, st)
  | some info =>
    (Json.obj [("status", Json.str (if info.procAlive then "running" else "stopped")),
               ("running", Json.bool info.procAlive),
               ("pid", Json.num (info.procPid : Int)),
               ("started_at", Json.str info.startedAtIso),
               ("uptime_seconds", Json.num (now - info.startedAt))], st)

/-- `FixedMCPServerManager.stop_server` (`mcp_manager.py` lines 302–324):
an untracked name logs a warning and returns `False`; otherwise the
client is closed and removed, the process cleaned up, and `True`
returned. -/
def stopServer (st : ManagerState) (name : String) : Bool × ManagerState :=
  match st.servers.lookup name with
  | none => (false, st)
  | some _ =>
    let st1 := { st with clients := st.clients.erase name }
    (true, cleanupServer st1 name)

/-- `EnhancedMCPServerManager.stop_server` (`app.py` lines 232–260): the
same shape — `False` for an untracked name, otherwise close client,
terminate process, delete the entry, `True`. -/
def enhancedStopServer (st : ManagerState) (name : String) : Bool × ManagerState :=
  match st.servers.lookup name with
  | none => (false, st)
  | some _ =>
    let st1 := { st with clients := st.clients.erase name }
    (true, { st1 with servers := st1.servers.eraseP (fun p => p.1 == name) })

/-- `FixedMCPServerManager.call_server_tool` (`mcp_manager.py` lines
367–384): names without a client entry get an immediate error result (no
client is touched, so the trace is empty — no write happens); otherwise
`None` arguments are normalized, the timeout selected by tool name, and
the call delegated to the client, whose own trace (including its stdin
write) is returned; an exception escaping `call_tool` would be converted
by the surrounding `except` into a `"Tool call error: ..."` result. -/
def callServerToolRun (mst : ManagerState) (cst : ClientState)
    (stdinBroken : Bool) (queue : List Json) (serverName toolName : String)
    (arguments : Option Json) : Except String Json × List Ev :=
  if mst.clients.contains serverName then
    let args := fixedNormalizeArgs arguments
    let timeout := if toolName == "transcribe_audio_file" then 300 else 60
    let run := callToolE cst toolName (some args) timeout stdinBroken queue
    (match run.result with
     | Except.error e => Except.ok (errObj ("Tool call error: " ++ e))
     | Except.ok r => Except.ok r,
     run.trace)
  else
    (Except.ok (errObj ("Server " ++ serverName ++
      " not running or no client available")), [])

/-! ## Identifier allocation (`self.request_id += 1`) -/

/-- The identifiers allocated by `n` successive `call_tool` invocations
starting from state `st` (each call increments `self.request_id` and uses
the incremented value, under the client lock). -/
def callIdsFrom (st : ClientState) : Nat → List Nat
  | 0 => []
  | n + 1 => (st.requestId + 1) :: callIdsFrom ⟨st.requestId + 1⟩ n

/-- The identifiers allocated by `n` successive calls on a freshly
constructed client. -/
def callIds (n : Nat) : List Nat :=
  callIdsFrom initialClientState n

/-! ## Concrete scenarios used to instantiate the theorems -/

/-- A response correlated to request id 2. -/
def respOther : Json :=
  Json.obj [("jsonrpc", Json.str "2.0"), ("id", Json.num 2), ("result", Json.str "b")]

/-- A response correlated to request id 1. -/
def respMine : Json :=
  Json.obj [("jsonrpc", Json.str "2.0"), ("id", Json.num 1), ("result", Json.str "a")]

/-- A response for id 1 carrying a structured error payload. -/
def errResp : Json :=
  Json.obj [("id", Json.num 1),
            ("error", Json.obj [("code", Json.num (-32000)),
                                ("message", Json.str "boom")])]

/-- A toy `json.loads`: parses exactly the two-character line `42`. -/
def demoLoads : List Char → Option Json :=
  fun l => if l = ['4', '2'] then some (Json.num 42) else none

/-- A child stdout stream: a malformed line `xx` followed by the valid
line `42`, both newline-terminated. -/
def demoStream : List Char := ['x', 'x', nlC, '4', '2', nlC]

/-- A tracked server whose child process has exited. -/
def deadInfo : ServerInfo := ⟨false, 123, "2026-01-01T00:00:00", 0⟩

/-- Manager state right after `start_server "transcriber"` succeeded and
the child then died: the name is tracked in both `servers` and
`clients`. -/
def stDead : ManagerState := ⟨[("transcriber", deadInfo)], ["transcriber"]⟩

/-! ## The serialized form of a message occupies a single line -/

theorem hexDigit_ne_nl : ∀ n < 16, hexDigit n ≠ nlC := by decide

theorem digitChar_ne_nl : ∀ d < 10, digitChar d ≠ nlC := by decide

theorem nl_not_mem_escapeChar (c : Char) : nlC ∉ escapeChar c := by
  unfold escapeChar
  split_ifs with h1 h2 h3 h4 h5 h6 h7 h8
  · decide
  · decide
  · decide
  · decide
  · decide
  · decide
  · decide
  · intro hmem
    simp only [List.mem_cons, List.not_mem_nil, or_false] at hmem
    rcases hmem with h | h | h | h | h | h
    · exact absurd h (by decide)
    · exact absurd h (by decide)
    · exact absurd h (by decide)
    · exact absurd h (by decide)
    · exact hexDigit_ne_nl (c.toNat / 16) (by omega) h.symm
    · exact hexDigit_ne_nl (c.toNat % 16) (by omega) h.symm
  · intro hmem
    simp only [List.mem_cons, List.not_mem_nil, or_false] at hmem
    exact h3 hmem.symm

theorem nl_not_mem_dumpsStr (s : List Char) : nlC ∉ dumpsStr s := by
  intro hmem
  rcases List.mem_cons.mp hmem with h | h
  · exact absurd h (by decide)
  · rcases List.mem_append.mp h with h | h
    · obtain ⟨l, hl, hnl⟩ := List.mem_flatten.mp h
      obtain ⟨c, _, rfl⟩ := List.mem_map.mp hl
      exact nl_not_mem_escapeChar c hnl
    · exact absurd h (by decide)

theorem nl_not_mem_natDigitsAux (fuel : Nat) : ∀ n, nlC ∉ natDigitsAux fuel n := by
  induction fuel with
  | zero => intro n; simp [natDigitsAux]
  | succ fuel ih =>
    intro n
    match n with
    | 0 => simp [natDigitsAux]
    | n + 1 =>
      intro hmem
      simp only [natDigitsAux, List.mem_append, List.mem_singleton] at hmem
      rcases hmem with h | h
      · exact ih _ h
      · exact digitChar_ne_nl ((n + 1) % 10) (Nat.mod_lt _ (by omega)) h.symm

theorem nl_not_mem_natChars (n : Nat) : nlC ∉ natChars n := by
  unfold natChars
  split_ifs
  · decide
  · exact nl_not_mem_natDigitsAux n n

theorem nl_not_mem_intChars (i : Int) : nlC ∉ intChars i := by
  unfold intChars
  split_ifs
  · intro hmem
    simp only [List.mem_cons] at hmem
    rcases hmem with h | h
    · exact absurd h (by decide)
    · exact nl_not_mem_natChars _ h
  · exact nl_not_mem_natChars _

mutual

theorem nl_not_mem_dumps : ∀ j : Json, nlC ∉ dumps j
  | Json.null => by simp only [dumps]; decide
  | Json.bool true => by simp only [dumps]; decide
  | Json.bool false => by simp only [dumps]; decide
  | Json.num i => nl_not_mem_intChars i
  | Json.str s => nl_not_mem_dumpsStr s.toList
  | Json.arr xs => by
      intro hmem
      rw [dumps] at hmem
      rcases List.mem_append.mp hmem with h | h
      · rcases List.mem_append.mp h with h | h
        · exact absurd h (by decide)
        · exact nl_not_mem_dumpsArr xs h
      · exact absurd h (by decide)
  | Json.obj kvs => by
      intro hmem
      rw [dumps] at hmem
      rcases List.mem_append.mp hmem with h | h
      · rcases List.mem_append.mp h with h | h
        · exact absurd h (by decide)
        · exact nl_not_mem_dumpsMembers kvs h
      · exact absurd h (by decide)

theorem nl_not_mem_dumpsArr : ∀ xs : List Json, nlC ∉ dumpsArr xs
  | [] => by simp [dumpsArr]
  | [x] => by simpa only [dumpsArr] using nl_not_mem_dumps x
  | x :: y :: xs => by
      intro hmem
      rw [dumpsArr] at hmem
      rcases List.mem_append.mp hmem with h | h
      · rcases List.mem_append.mp h with h | h
        · exact nl_not_mem_dumps x h
        · exact absurd h (by decide)
      · exact nl_not_mem_dumpsArr (y :: xs) h

theorem nl_not_mem_dumpsMembers : ∀ kvs : List (String × Json), nlC ∉ dumpsMembers kvs
  | [] => by simp [dumpsMembers]
  | [kv] => by
      intro hmem
      rw [dumpsMembers] at hmem
      rcases List.mem_append.mp hmem with h | h
      · rcases List.mem_append.mp h with h | h
        · exact nl_not_mem_dumpsStr kv.1.toList h
        · exact absurd h (by decide)
      · exact nl_not_mem_dumps kv.2 h
  | kv :: kv2 :: kvs => by
      intro hmem
      rw [dumpsMembers] at hmem
      rcases List.mem_append.mp hmem with h | h
      · rcases List.mem_append.mp h with h | h
        · rcases List.mem_append.mp h with h | h
          · rcases List.mem_append.mp h with h | h
            · exact nl_not_mem_dumpsStr kv.1.toList h
            · exact absurd h (by decide)
          · exact nl_not_mem_dumps kv.2 h
        · exact absurd h (by decide)
      · exact nl_not_mem_dumpsMembers (kv2 :: kvs) h

end
theorem splitFirstNewline_eq_none {l : List Char} (h : nlC ∉ l) :
    splitFirstNewline l = none := by
  induction l with
  | nil => rfl
  | cons c cs ih =>
    simp only [List.mem_cons, not_or] at h
    have hc : ¬ c = nlC := fun hc => h.1 hc.symm
    simp only [splitFirstNewline, if_neg hc, ih h.2]

theorem splitFirstNewline_concat_nl {b : List Char} (h : nlC ∉ b) :
    splitFirstNewline (b ++ [nlC]) = some (b, []) := by
  induction b with
  | nil => simp [splitFirstNewline]
  | cons c cs ih =>
    simp only [List.mem_cons, not_or] at h
    have hc : ¬ c = nlC := fun hc => h.1 hc.symm
    simp only [List.cons_append, splitFirstNewline, if_neg hc, List.append_eq, ih h.2]

theorem splitFirstNewline_length {b l r : List Char}
    (h : splitFirstNewline b = some (l, r)) : r.length < b.length := by
  induction b generalizing l r with
  | nil => simp [splitFirstNewline] at h
  | cons c cs ih =>
    simp only [splitFirstNewline] at h
    split_ifs at h with hc
    · cases h
      simp
    · cases hsplit : splitFirstNewline cs with
      | none => rw [hsplit] at h; cases h
      | some p =>
        rw [hsplit] at h
        cases h
        exact Nat.lt_trans (ih hsplit) (by simp)

/-! ## Behavioural lemmas about the correlator loop -/

/-- A response handed back by the polling loop always carries the
caller's own identifier. -/
theorem waitLoopT_matched_idEq (rid : Nat) :
    ∀ (fuel : Nat) (queue : List Json) (resp : Json),
      (waitLoopT rid fuel queue).1 = WaitResult.matched resp →
      Json.idEq resp rid = true := by
  intro fuel
  induction fuel with
  | zero => intro queue resp h; simp [waitLoopT] at h
  | succ fuel ih =>
    intro queue resp h
    cases queue with
    | nil =>
      rw [waitLoopT] at h
      exact ih [] resp h
    | cons r rest =>
      cases r with
      | obj kvs =>
        rw [waitLoopT] at h
        dsimp only at h
        by_cases hid : Json.idEq (Json.obj kvs) rid = true
        · rw [if_pos hid] at h
          cases herr : kvs.lookup "error" with
          | none =>
            rw [herr] at h
            cases h
            exact hid
          | some e =>
            rw [herr] at h
            cases e <;> simp at h
        · rw [if_neg hid] at h
          exact ih (rest ++ [Json.obj kvs]) resp h
      | null => simp [waitLoopT] at h
      | bool b => simp [waitLoopT] at h
      | num n => simp [waitLoopT] at h
      | str s => simp [waitLoopT] at h
      | arr xs => simp [waitLoopT] at h

/-- The polling loop of `MCPClient.call_tool` also only ever returns a
response carrying the caller's own identifier. -/
theorem appWaitLoop_matched_idEq (rid : Nat) :
    ∀ (fuel : Nat) (queue : List Json) (resp : Json),
      appWaitLoop rid fuel queue = WaitResult.matched resp →
      Json.idEq resp rid = true := by
  intro fuel
  induction fuel with
  | zero => intro queue resp h; simp [appWaitLoop] at h
  | succ fuel ih =>
    intro queue resp h
    cases queue with
    | nil =>
      rw [appWaitLoop] at h
      exact ih [] resp h
    | cons r rest =>
      cases r with
      | obj kvs =>
        rw [appWaitLoop] at h
        by_cases hid : Json.idEq (Json.obj kvs) rid = true
        · rw [if_pos hid] at h
          cases herr : kvs.lookup "error" with
          | none =>
            rw [herr] at h
            cases h
            exact hid
          | some e =>
            rw [herr] at h
            cases e <;> simp at h
        · rw [if_neg hid] at h
          exact ih rest resp h
      | null => simp [appWaitLoop] at h
      | bool b => simp [appWaitLoop] at h
      | num n => simp [appWaitLoop] at h
      | str s => simp [appWaitLoop] at h
      | arr xs => simp [appWaitLoop] at h

/-- The polling loop only touches the response queue: every event of its
trace is a queue event (in particular it never writes to stdin). -/
theorem waitLoopT_queue_events (rid : Nat) :
    ∀ (fuel : Nat) (queue : List Json),
      ∀ e ∈ (waitLoopT rid fuel queue).2, e.isQueueEv = true := by
  intro fuel
  induction fuel with
  | zero => intro queue e he; simp [waitLoopT] at he
  | succ fuel ih =>
    intro queue e he
    cases queue with
    | nil =>
      rw [waitLoopT] at he
      rcases List.mem_cons.mp he with h | h
      · subst h; rfl
      · exact ih [] e h
    | cons r rest =>
      cases r with
      | obj kvs =>
        rw [waitLoopT] at he
        dsimp only at he
        by_cases hid : Json.idEq (Json.obj kvs) rid = true
        · rw [if_pos hid] at he
          cases herr : kvs.lookup "error" with
          | none =>
            rw [herr] at he
            rcases List.mem_singleton.mp he with rfl
            rfl
          | some e' =>
            rw [herr] at he
            cases e' <;>
              · rcases List.mem_singleton.mp he with rfl
                rfl
        · rw [if_neg hid] at he
          rcases List.mem_cons.mp he with h | h
          · subst h; rfl
          · rcases List.mem_cons.mp h with h' | h'
            · subst h'; rfl
            · exact ih (rest ++ [Json.obj kvs]) e h'
      | null =>
        simp only [waitLoopT, List.mem_singleton] at he
        subst he; rfl
      | bool b =>
        simp only [waitLoopT, List.mem_singleton] at he
        subst he; rfl
      | num n =>
        simp only [waitLoopT, List.mem_singleton] at he
        subst he; rfl
      | str s =>
        simp only [waitLoopT, List.mem_singleton] at he
        subst he; rfl
      | arr xs =>
        simp only [waitLoopT, List.mem_singleton] at he
        subst he; rfl

/-! ## Behavioural lemmas about the framed message reader -/

theorem handleBufferAux_no_nl (loads : List Char → Option Json) (fuel : Nat)
    {b : List Char} (h : nlC ∉ b) : handleBufferAux loads fuel b = ([], b) := by
  cases fuel with
  | zero => rfl
  | succ fuel => simp [handleBufferAux, splitFirstNewline_eq_none h]

theorem handleBuffer_no_nl (loads : List Char → Option Json)
    {b : List Char} (h : nlC ∉ b) : handleBuffer loads b = ([], b) :=
  handleBufferAux_no_nl loads _ h

theorem handleBuffer_line (loads : List Char → Option Json)
    {b : List Char} (h : nlC ∉ b) :
    handleBuffer loads (b ++ [nlC]) = ((lineResult loads b).toList, []) := by
  unfold handleBuffer
  have hlen : (b ++ [nlC]).length = b.length + 1 := by simp
  rw [hlen]
  simp only [handleBufferAux, splitFirstNewline_concat_nl h]
  rw [handleBufferAux_no_nl loads b.length (by simp)]
  simp

/-- The reader delivers exactly the parse results of the non-empty
stripped complete lines of the stream: the `while` loop over the
character stream is equivalent to a line-by-line `filterMap`. -/
theorem readResponses_eq_filterMap (loads : List Char → Option Json) :
    ∀ (stream buf : List Char), nlC ∉ buf →
      readResponses loads stream buf =
        (completeLines stream buf).filterMap (lineResult loads) := by
  intro stream
  induction stream with
  | nil => intro buf _; rfl
  | cons c cs ih =>
    intro buf hbuf
    by_cases hc : c = nlC
    · subst hc
      rw [readResponses]
      rw [show handleBuffer loads (buf ++ [nlC]) = ((lineResult loads buf).toList, []) from
        handleBuffer_line loads hbuf]
      rw [completeLines, if_pos rfl, List.filterMap_cons]
      cases hl : lineResult loads buf with
      | none => simpa [hl] using ih [] (by simp)
      | some r => simpa [hl] using ih [] (by simp)
    · rw [readResponses]
      rw [show handleBuffer loads (buf ++ [c]) = ([], buf ++ [c]) from
        handleBuffer_no_nl loads (by
          intro hmem
          rcases List.mem_append.mp hmem with h | h
          · exact hbuf h
          · rcases List.mem_singleton.mp h with rfl
            exact hc rfl)]
      rw [completeLines, if_neg hc]
      simpa using ih (buf ++ [c]) (by
        intro hmem
        rcases List.mem_append.mp hmem with h | h
        · exact hbuf h
        · rcases List.mem_singleton.mp h with rfl
          exact hc rfl)

/-- Every message the app-level reader publishes is the successful parse
of one of the delivered lines. -/
theorem appReadResponses_sound (loads : List Char → Option Json) :
    ∀ (ls : List (List Char)), ∀ r ∈ appReadResponses loads ls,
      ∃ l ∈ ls, loads (stripChars l) = some r := by
  intro ls
  induction ls with
  | nil => intro r hr; simp [appReadResponses] at hr
  | cons l ls ih =>
    intro r hr
    rw [appReadResponses] at hr
    rcases List.mem_append.mp hr with h | h
    · by_cases hl : l = []
      · rw [if_pos hl] at h
        simp at h
      · rw [if_neg hl] at h
        cases hp : loads (stripChars l) with
        | none => rw [hp] at h; simp at h
        | some r' =>
          rw [hp] at h
          rcases List.mem_singleton.mp h with rfl
          exact ⟨l, List.mem_cons_self l ls, hp⟩
    · obtain ⟨l', hl', hp⟩ := ih r h
      exact ⟨l', List.mem_cons_of_mem l hl', hp⟩

theorem callIdsFrom_lower (st : ClientState) :
    ∀ n, ∀ i ∈ callIdsFrom st n, st.requestId < i := by
  intro n
  induction n generalizing st with
  | zero => intro i hi; simp [callIdsFrom] at hi
  | succ n ih =>
    intro i hi
    rcases List.mem_cons.mp hi with h | h
    · omega
    · exact Nat.lt_trans (Nat.lt_succ_self _) (ih ⟨st.requestId + 1⟩ i h)

theorem callIdsFrom_pairwise (st : ClientState) :
    ∀ n, List.Pairwise (· < ·) (callIdsFrom st n) := by
  intro n
  induction n generalizing st with
  | zero => exact List.Pairwise.nil
  | succ n ih =>
    refine List.Pairwise.cons ?_ (ih ⟨st.requestId + 1⟩)
    intro i hi
    exact callIdsFrom_lower ⟨st.requestId + 1⟩ n i hi

/-- `callToolE` allocates exactly `st.requestId + 1` and leaves the state
at that value, so successive calls realise `callIdsFrom`. -/
theorem callToolE_allocates (st : ClientState) (toolName : String)
    (arguments : Option Json) (timeout : Nat) (stdinBroken : Bool)
    (queue : List Json) :
    (callToolE st toolName arguments timeout stdinBroken queue).finalState =
      ⟨st.requestId + 1⟩ ∧
    Ev.allocId (st.requestId + 1) ∈
      (callToolE st toolName arguments timeout stdinBroken queue).trace := by
  constructor
  · rfl
  · simp [callToolE]

/-! ## Step equations and trace shape of `call_tool` -/

/-- A queued message for a different identifier is put back on the queue
and the loop keeps waiting on the remaining fuel. -/
theorem waitLoopT_putBack (rid fuel : Nat) (kvs : List (String × Json))
    (rest : List Json) (h : Json.idEq (Json.obj kvs) rid = false) :
    waitLoopT rid (fuel + 1) (Json.obj kvs :: rest) =
      ((waitLoopT rid fuel (rest ++ [Json.obj kvs])).1,
       Ev.queueGet (Json.obj kvs) :: Ev.queuePutBack (Json.obj kvs) ::
         (waitLoopT rid fuel (rest ++ [Json.obj kvs])).2) := by
  rw [waitLoopT]
  simp [h]

/-- The app-level loop silently drops a message for a different
identifier. -/
theorem appWaitLoop_drop (rid fuel : Nat) (kvs : List (String × Json))
    (rest : List Json) (h : Json.idEq (Json.obj kvs) rid = false) :
    appWaitLoop rid (fuel + 1) (Json.obj kvs :: rest) =
      appWaitLoop rid fuel rest := by
  rw [appWaitLoop]
  simp [h]

/-- A matching message with an error payload makes the loop report the
remote code and message (with the source's defaults). -/
theorem waitLoopT_remoteError (rid fuel : Nat) (kvs ekvs : List (String × Json))
    (rest : List Json) (hid : Json.idEq (Json.obj kvs) rid = true)
    (herr : kvs.lookup "error" = some (Json.obj ekvs)) :
    (waitLoopT rid (fuel + 1) (Json.obj kvs :: rest)).1 =
      WaitResult.remoteError ((ekvs.lookup "code").getD (Json.num (-32603)))
        ((ekvs.lookup "message").getD (Json.str "Unknown error")) := by
  rw [waitLoopT]
  simp [hid, herr]

/-- The trace of every call starts by taking the lock and releases it only
as the very last event — in particular the whole wait-for-response phase
happens under the lock. -/
theorem callToolE_trace_shape (st : ClientState) (toolName : String)
    (arguments : Option Json) (timeout : Nat) (stdinBroken : Bool)
    (queue : List Json) :
    ((callToolE st toolName arguments timeout stdinBroken queue).trace).head? =
      some Ev.lockAcquire ∧
    ((callToolE st toolName arguments timeout stdinBroken queue).trace).getLast? =
      some Ev.lockRelease := by
  have h : ∀ (a b : Ev) (l : List Ev),
      (a :: (b :: l ++ [Ev.lockRelease])).getLast? = some Ev.lockRelease := by
    intro a b l
    have he : a :: (b :: l ++ [Ev.lockRelease]) = (a :: b :: l) ++ [Ev.lockRelease] := by
      simp
    rw [he, List.getLast?_concat]
  exact ⟨rfl, h _ _ _⟩

/-! ## Result lemmas for `call_tool` -/

/-- `call_tool` never lets an exception escape: every outcome — matched
response, remote error, timeout, `AttributeError`, `BrokenPipeError` — is
returned as a value, because the whole body sits inside
`try ... except Exception`. -/
theorem callToolE_result_isOk (st : ClientState) (toolName : String)
    (arguments : Option Json) (timeout : Nat) (stdinBroken : Bool)
    (queue : List Json) :
    ((callToolE st toolName arguments timeout stdinBroken queue).result).isOk = true := by
  cases stdinBroken with
  | true => rfl
  | false =>
    rcases h : (waitLoopT (st.requestId + 1) timeout queue).1 with resp | ⟨c, m⟩ | e | _ <;>
      simp [callToolE, h, Except.isOk, Except.toBool]

/-- A `BrokenPipeError` during the send is converted into a
`Communication error` result inside `call_tool` itself. -/
theorem callToolE_brokenPipe (st : ClientState) (toolName : String)
    (arguments : Option Json) (timeout : Nat) (queue : List Json) :
    (callToolE st toolName arguments timeout true queue).result =
      Except.ok (commErrorObj brokenPipeMsg) := rfl

/-- A matched response is returned as-is. -/
theorem callToolE_matched (st : ClientState) (toolName : String)
    (arguments : Option Json) (timeout : Nat) (queue : List Json) (resp : Json)
    (h : (waitLoopT (st.requestId + 1) timeout queue).1 = WaitResult.matched resp) :
    (callToolE st toolName arguments timeout false queue).result = Except.ok resp := by
  simp [callToolE, h]

/-- A matched response with an error payload becomes the
`MCP Error <code>: <message>` result dict. -/
theorem callToolE_remoteErrorResult (st : ClientState) (toolName : String)
    (arguments : Option Json) (timeout : Nat) (queue : List Json) (c m : Json)
    (h : (waitLoopT (st.requestId + 1) timeout queue).1 = WaitResult.remoteError c m) :
    (callToolE st toolName arguments timeout false queue).result =
      Except.ok (errObj (mcpErrorString c m)) := by
  simp [callToolE, h]

/-- The analogous mapping for the app-level client. -/
theorem appCallToolE_remoteErrorResult (st : ClientState) (toolName : String)
    (arguments : Option Json) (timeout : Nat) (queue : List Json) (c m : Json)
    (h : appWaitLoop (st.requestId + 1) timeout queue = WaitResult.remoteError c m) :
    (appCallToolE st toolName arguments timeout false queue).1 =
      Except.ok (errObj (mcpErrorString c m)) := by
  simp [appCallToolE, h]

/-! ## The request line on the wire -/

/-- The single written string contains exactly one newline, at its end. -/
theorem sendLine_single_line (req : Json) :
    (sendLine req).count nlC = 1 ∧ (sendLine req).getLast? = some nlC := by
  constructor
  · rw [sendLine, List.count_append]
    rw [List.count_eq_zero.mpr (nl_not_mem_dumps req)]
    simp
  · rw [sendLine, List.getLast?_concat]

/-- Queue events are neither writes nor flushes. -/
theorem Ev.queueEv_not_io (e : Ev) (h : e.isQueueEv = true) :
    (e.isWrite || e.isFlush) = false := by
  cases e <;> simp_all [Ev.isQueueEv, Ev.isWrite, Ev.isFlush]

/-- When the pipe is healthy, the I/O of a whole `call_tool` invocation is
exactly one stdin write of the serialized request line followed by one
flush — nothing else in the call touches the pipe. -/
theorem callToolE_write_events (st : ClientState) (toolName : String)
    (arguments : Option Json) (timeout : Nat) (queue : List Json) :
    ((callToolE st toolName arguments timeout false queue).trace.filter
        (fun e => e.isWrite || e.isFlush)) =
      [Ev.writeStdin (sendLine (mkToolCallRequest (st.requestId + 1) toolName
        (fixedNormalizeArgs arguments))), Ev.flushStdin] := by
  have hq := waitLoopT_queue_events (st.requestId + 1) timeout queue
  simp [callToolE, List.filter_append, Ev.isWrite, Ev.isFlush]
  intro a ha
  have h2 := hq a ha
  cases a <;> simp [Ev.isQueueEv] at h2 ⊢

/-! ## Dictionary lemmas for the registry state -/

theorem lookup_eq_none_of_not_mem {α : Type _} :
    ∀ {l : List (String × α)} {name : String},
      name ∉ l.map Prod.fst → l.lookup name = none := by
  intro l
  induction l with
  | nil => intro name _; rfl
  | cons kv t ih =>
    intro name h
    obtain ⟨k, v⟩ := kv
    simp only [List.map_cons, List.mem_cons, not_or] at h
    simp only [List.lookup]
    rw [show (name == k) = false from beq_eq_false_iff_ne.mpr h.1]
    exact ih h.2

/-- Deleting a key from a dict (unique keys) makes a subsequent lookup of
that key fail, whether or not the key was present. -/
theorem lookup_eraseP_key {α : Type _} :
    ∀ {l : List (String × α)} {name : String},
      (l.map Prod.fst).Nodup →
      ((l.eraseP (fun p => p.1 == name)).lookup name) = none := by
  intro l
  induction l with
  | nil => intro name _; rfl
  | cons kv t ih =>
    intro name h
    obtain ⟨k, v⟩ := kv
    simp only [List.map_cons, List.nodup_cons] at h
    by_cases hk : k = name
    · subst hk
      rw [List.eraseP_cons_of_pos (by simp)]
      exact lookup_eq_none_of_not_mem h.1
    · rw [List.eraseP_cons_of_neg (by simp [hk])]
      simp only [List.lookup]
      rw [show (name == k) = false from beq_eq_false_iff_ne.mpr (Ne.symm hk)]
      exact ih h.2

/-- Status of a tracked server whose process has died: reported stopped,
entry removed. -/
theorem getServerStatus_dead (now : Int) (st : ManagerState) (name : String)
    (info : ServerInfo) (hl : st.servers.lookup name = some info)
    (hd : info.procAlive = false) :
    getServerStatus now st name = (stoppedObj, cleanupServer st name) := by
  simp [getServerStatus, hl, hd]

/-- Status of an untracked server: reported stopped, state unchanged. -/
theorem getServerStatus_untracked (now : Int) (st : ManagerState) (name : String)
    (hl : st.servers.lookup name = none) :
    getServerStatus now st name = (stoppedObj, st) := by
  simp [getServerStatus, hl]

/-- The stdin writes of a call, viewed alone: exactly one, carrying the
serialized request with the normalized arguments embedded. -/
theorem callToolE_writes_only (st : ClientState) (toolName : String)
    (arguments : Option Json) (timeout : Nat) (queue : List Json) :
    ((callToolE st toolName arguments timeout false queue).trace.filter Ev.isWrite) =
      [Ev.writeStdin (sendLine (mkToolCallRequest (st.requestId + 1) toolName
        (fixedNormalizeArgs arguments)))] := by
  have hq := waitLoopT_queue_events (st.requestId + 1) timeout queue
  simp [callToolE, List.filter_append, Ev.isWrite]
  intro a ha
  have h2 := hq a ha
  cases a <;> simp [Ev.isQueueEv] at h2 ⊢

/-- The app-level normalization always yields a dict. -/
theorem mcpNormalizeArgs_isObj (a : Option Json) :
    (mcpNormalizeArgs a).isObj = true := by
  cases a with
  | none => rfl
  | some j => cases j <;> rfl

/-- The app-level normalization replaces a non-dict by the empty dict. -/
theorem mcpNormalizeArgs_nonObj (j : Json) (h : j.isObj = false) :
    mcpNormalizeArgs (some j) = Json.obj [] := by
  cases j with
  | obj kvs => simp [Json.isObj] at h
  | null => rfl
  | bool b => rfl
  | num n => rfl
  | str s => rfl
  | arr xs => rfl

/-- The trace of a call on a healthy pipe always contains a stdin
write. -/
theorem callToolE_has_write (st : ClientState) (toolName : String)
    (arguments : Option Json) (timeout : Nat) (queue : List Json) :
    (callToolE st toolName arguments timeout false queue).trace.any
      Ev.isWrite = true := by
  have hmem : Ev.writeStdin (sendLine (mkToolCallRequest (st.requestId + 1)
      toolName (fixedNormalizeArgs arguments))) ∈
      (callToolE st toolName arguments timeout false queue).trace := by
    simp [callToolE]
  rw [List.any_eq_true]
  exact ⟨_, hmem, rfl⟩

/-- The params.arguments field of the built envelope is exactly the
normalized arguments value. -/
theorem mkToolCallRequest_arguments (rid : Nat) (toolName : String) (args : Json) :
    (Json.lookup (mkToolCallRequest rid toolName args) "params").bind
      (fun p => Json.lookup p "arguments") = some args := by
  rfl

/-! ## Claim theorems -/

/-- C1, counterexample: `FixedMCPClient.call_tool` coerces only
omitted/`None` arguments to a dict.  Calling it with a non-mapping value
(here the list `[]`) forwards that value unchanged: the single request
line written to the child's stdin serializes an envelope whose
`params.arguments` field is the list, not an object — contradicting the
claim that the transmitted request always carries an object-typed
`arguments` field. -/
theorem c1_counterexample :
    fixedNormalizeArgs (some (Json.arr [])) = Json.arr [] ∧
    Json.isObj (Json.arr []) = false ∧
    ((callToolE initialClientState "list_transcriptions" (some (Json.arr [])) 60 false
        []).trace.filter Ev.isWrite) =
      [Ev.writeStdin (sendLine (mkToolCallRequest 1 "list_transcriptions" (Json.arr [])))] ∧
    (Json.lookup (mkToolCallRequest 1 "list_transcriptions" (Json.arr [])) "params").bind
      (fun p => Json.lookup p "arguments") = some (Json.arr []) := by
  exact ⟨rfl, rfl, by rfl, by rfl⟩

/-- C1 (amended): the app-level operations (`MCPClient.call_tool`,
`EnhancedMCPServerManager.call_server_tool`) coerce omitted, `None` and
non-mapping arguments to an empty dict, so their requests always carry an
object-typed `arguments` field; the mcp_manager operations
(`FixedMCPClient.call_tool`, `FixedMCPServerManager.call_server_tool`)
coerce only omitted/`None` — a non-mapping value is forwarded unchanged
into the written request. -/
theorem c1_arguments_normalization :
    (∀ a : Option Json, (mcpNormalizeArgs a).isObj = true) ∧
    mcpNormalizeArgs none = Json.obj [] ∧
    (∀ j : Json, j.isObj = false → mcpNormalizeArgs (some j) = Json.obj []) ∧
    fixedNormalizeArgs none = Json.obj [] ∧
    (∀ j : Json, fixedNormalizeArgs (some j) = j) ∧
    (∀ (st : ClientState) (tool : String) (a : Option Json) (timeout : Nat)
        (queue : List Json),
      ((callToolE st tool a timeout false queue).trace.filter Ev.isWrite) =
        [Ev.writeStdin (sendLine (mkToolCallRequest (st.requestId + 1) tool
          (fixedNormalizeArgs a)))]) ∧
    (∀ (rid : Nat) (tool : String) (args : Json),
      (Json.lookup (mkToolCallRequest rid tool args) "params").bind
        (fun p => Json.lookup p "arguments") = some args) :=
  ⟨mcpNormalizeArgs_isObj, rfl, mcpNormalizeArgs_nonObj, rfl, fun _ => rfl,
   callToolE_writes_only, mkToolCallRequest_arguments⟩

/-- C1 witness: a non-dict value is replaced by the app-level client but
passed through by the mcp_manager client. -/
theorem c1_arguments_normalization_witness :
    mcpNormalizeArgs (some (Json.num 3)) = Json.obj [] ∧
    fixedNormalizeArgs (some (Json.num 3)) = Json.num 3 :=
  ⟨c1_arguments_normalization.2.2.1 (Json.num 3) rfl,
   c1_arguments_normalization.2.2.2.2.1 (Json.num 3)⟩

/-- C2, counterexample: in `FixedMCPClient.call_tool` the `with self.lock`
block encloses the whole body, so the wait-for-response phase happens
*under* the write-side lock, not after its release.  In this concrete run
with two queued responses delivered out of order, queue-get events occur
strictly before the lock-release event (which is the last event of the
trace), refuting "the mutual exclusion is released before the
wait-for-response phase"; the second conjunct shows the call nevertheless
returns exactly the response matching its own identifier. -/
theorem c2_counterexample :
    ((callToolE initialClientState "ping" none 30 false
        [respOther, respMine]).trace.takeWhile
          (fun e => !(Ev.isLockRelease e))).any Ev.isQueueGet = true ∧
    (callToolE initialClientState "ping" none 30 false
        [respOther, respMine]).result = Except.ok respMine := by
  exact ⟨by rfl, by rfl⟩

/-- C2 (amended): in `FixedMCPClient.call_tool` the lock is held for the
entire call — acquired as the first event and released only as the last,
after the wait phase — so calls on one client are fully serialized
(`MCPClient.call_tool` in app.py takes no lock at all).  Matching is
nevertheless by identifier: a call only ever returns a response whose id
equals its own allocated identifier; `FixedMCPClient` re-enqueues a
response for another identifier and keeps waiting, while `MCPClient`
silently drops it and keeps waiting. -/
theorem c2_lock_and_matching :
    (∀ (st : ClientState) (tool : String) (args : Option Json) (timeout : Nat)
        (broken : Bool) (queue : List Json),
      ((callToolE st tool args timeout broken queue).trace).head? =
          some Ev.lockAcquire ∧
        ((callToolE st tool args timeout broken queue).trace).getLast? =
          some Ev.lockRelease) ∧
    (∀ (rid fuel : Nat) (queue : List Json) (resp : Json),
      (waitLoopT rid fuel queue).1 = WaitResult.matched resp →
      Json.idEq resp rid = true) ∧
    (∀ (rid fuel : Nat) (kvs : List (String × Json)) (rest : List Json),
      Json.idEq (Json.obj kvs) rid = false →
      waitLoopT rid (fuel + 1) (Json.obj kvs :: rest) =
        ((waitLoopT rid fuel (rest ++ [Json.obj kvs])).1,
         Ev.queueGet (Json.obj kvs) :: Ev.queuePutBack (Json.obj kvs) ::
           (waitLoopT rid fuel (rest ++ [Json.obj kvs])).2)) ∧
    (∀ (rid fuel : Nat) (queue : List Json) (resp : Json),
      appWaitLoop rid fuel queue = WaitResult.matched resp →
      Json.idEq resp rid = true) ∧
    (∀ (rid fuel : Nat) (kvs : List (String × Json)) (rest : List Json),
      Json.idEq (Json.obj kvs) rid = false →
      appWaitLoop rid (fuel + 1) (Json.obj kvs :: rest) =
        appWaitLoop rid fuel rest) :=
  ⟨fun st tool args timeout broken queue =>
      callToolE_trace_shape st tool args timeout broken queue,
   waitLoopT_matched_idEq, waitLoopT_putBack,
   appWaitLoop_matched_idEq, appWaitLoop_drop⟩

/-- C2 witness: the matching facts instantiated on a concrete queue. -/
theorem c2_lock_and_matching_witness :
    Json.idEq respMine 1 = true ∧
    appWaitLoop 1 3 [respOther, respMine] = appWaitLoop 1 2 [respMine] :=
  ⟨c2_lock_and_matching.2.1 1 2 [respMine] respMine rfl,
   c2_lock_and_matching.2.2.2.2 1 2
     [("jsonrpc", Json.str "2.0"), ("id", Json.num 2), ("result", Json.str "b")]
     [respMine] rfl⟩

/-- C3: identifiers allocated by one `FixedMCPClient` instance are
strictly increasing (hence never repeat), and every tool-call identifier
is strictly greater than the handshake identifier 0 reserved by the
`initialize` request; each `call_tool` invocation allocates exactly
`request_id + 1` and leaves the counter there. -/
theorem c3_identifiers_strictly_increasing (n : Nat) :
    List.Pairwise (· < ·) (callIds n) ∧
    (callIds n).Nodup ∧
    Json.lookup initializeRequest "id" = some (Json.num 0) ∧
    (∀ i ∈ callIds n, 0 < i) ∧
    (∀ (st : ClientState) (tool : String) (args : Option Json) (timeout : Nat)
        (broken : Bool) (queue : List Json),
      (callToolE st tool args timeout broken queue).finalState =
          ⟨st.requestId + 1⟩ ∧
        Ev.allocId (st.requestId + 1) ∈
          (callToolE st tool args timeout broken queue).trace) :=
  ⟨callIdsFrom_pairwise initialClientState n,
   (callIdsFrom_pairwise initialClientState n).imp (fun h => Nat.ne_of_lt h),
   rfl,
   fun i hi => callIdsFrom_lower initialClientState n i hi,
   fun st tool args timeout broken queue =>
     callToolE_allocates st tool args timeout broken queue⟩

/-- C3 witness: the first three allocated identifiers. -/
theorem c3_identifiers_strictly_increasing_witness :
    (0 : Nat) < 2 ∧ List.Pairwise (· < ·) (callIds 3) :=
  ⟨(c3_identifiers_strictly_increasing 3).2.2.2.1 2 (by decide),
   (c3_identifiers_strictly_increasing 3).1⟩

/-- C4, counterexample: the envelope key carrying the protocol version is
`"jsonrpc"`, not `"protocol"`: the transmitted object has keys
`jsonrpc, id, method, params`, no `protocol` key, and its `jsonrpc`
field holds `"2.0"` — so the claimed shape
`\x7b"protocol":"2.0",...\x7d` is not what is written. -/
theorem c4_counterexample :
    Json.keys (mkToolCallRequest 1 "ping" (Json.obj [])) =
      ["jsonrpc", "id", "method", "params"] ∧
    Json.lookup (mkToolCallRequest 1 "ping" (Json.obj [])) "protocol" = none ∧
    Json.lookup (mkToolCallRequest 1 "ping" (Json.obj [])) "jsonrpc" =
      some (Json.str "2.0") := by
  exact ⟨by rfl, by rfl, by rfl⟩

/-- C4 (amended): every tool-call request is transmitted as a single line
— one JSON object with no embedded raw newline, exactly one trailing
newline — via a single stdin write followed by one flush, and the object
has exactly the shape `\x7b"jsonrpc":"2.0","id":<int>,"method":"tools/call",
"params":\x7b"name":<tool>,"arguments":<args>\x7d\x7d` (key `jsonrpc`, not
`protocol`). -/
theorem c4_wire_format (rid : Nat) (toolName : String) (args : Json)
    (st : ClientState) (timeout : Nat) (queue : List Json) :
    mkToolCallRequest rid toolName args =
      Json.obj [("jsonrpc", Json.str "2.0"), ("id", Json.num (rid : Int)),
                ("method", Json.str "tools/call"),
                ("params", Json.obj [("name", Json.str toolName),
                                     ("arguments", args)])] ∧
    (sendLine (mkToolCallRequest rid toolName args)).count nlC = 1 ∧
    (sendLine (mkToolCallRequest rid toolName args)).getLast? = some nlC ∧
    ((callToolE st toolName (some args) timeout false queue).trace.filter
        (fun e => e.isWrite || e.isFlush)) =
      [Ev.writeStdin (sendLine (mkToolCallRequest (st.requestId + 1) toolName args)),
       Ev.flushStdin] :=
  ⟨rfl, (sendLine_single_line _).1, (sendLine_single_line _).2,
   callToolE_write_events st toolName (some args) timeout queue⟩

/-- C5: a newline-terminated line of the child's stdout that is not valid
JSON is never published to the delivery queue, the reader (a total
function here — it raises nothing) continues with subsequent lines, and
the published messages are exactly the successful parses of the stripped
non-empty complete lines, in order; the app.py readline-based reader
likewise only publishes successful parses. -/
theorem c5_reader_discards_malformed (loads : List Char → Option Json)
    (stream : List Char) :
    readResponses loads stream [] =
      (completeLines stream []).filterMap (lineResult loads) ∧
    (∀ r ∈ readResponses loads stream [],
      ∃ l ∈ completeLines stream [],
        stripChars l ≠ [] ∧ loads (stripChars l) = some r) ∧
    (∀ (ls : List (List Char)), ∀ r ∈ appReadResponses loads ls,
      ∃ l ∈ ls, loads (stripChars l) = some r) := by
  have h1 := readResponses_eq_filterMap loads stream [] (by simp)
  refine ⟨h1, ?_, appReadResponses_sound loads⟩
  intro r hr
  rw [h1] at hr
  obtain ⟨l, hl, hf⟩ := List.mem_filterMap.mp hr
  unfold lineResult at hf
  by_cases hs : stripChars l = []
  · rw [if_pos hs] at hf
    cases hf
  · rw [if_neg hs] at hf
    exact ⟨l, hl, hs, hf⟩

/-- C5 witness: on the stream `xx\n42\n` with a parser accepting only
`42`, the malformed line is dropped and the valid line delivered. -/
theorem c5_reader_discards_malformed_witness :
    ∃ l ∈ completeLines demoStream [],
      stripChars l ≠ [] ∧ demoLoads (stripChars l) = some (Json.num 42) :=
  (c5_reader_discards_malformed demoLoads demoStream).2.1 (Json.num 42)
    (by show Json.num 42 ∈ ([Json.num 42] : List Json); simp)

/-- C6, counterexample: reaping a dead server through
`get_server_status` deletes it from `self.servers` but NOT from
`self.clients` (`_cleanup_server` touches only `servers`), so a
subsequent `call_server_tool` for that name does not take the immediate
error path: it delegates to the leaked client and a stdin write is
attempted — contradicting the claim for the "died and was reaped"
case. -/
theorem c6_counterexample :
    (getServerStatus 0 stDead "transcriber").2 =
      ⟨[], ["transcriber"]⟩ ∧
    ((callServerToolRun (getServerStatus 0 stDead "transcriber").2
        initialClientState false [] "transcriber" "list_transcriptions"
        none).2.any Ev.isWrite) = true := by
  exact ⟨by rfl, by rfl⟩

/-- C6 (amended): `call_server_tool` returns an error result immediately,
touching no client, exactly when the name has no entry in `self.clients`
(never started, or stopped via `stop_server`); reaping a dead process via
`get_server_status` leaves `self.clients` unchanged, so for such a name
the call is still delegated and a stdin write is attempted. -/
theorem c6_registry_gating :
    (∀ (mst : ManagerState) (cst : ClientState) (broken : Bool)
        (queue : List Json) (serverName toolName : String) (args : Option Json),
      mst.clients.contains serverName = false →
      callServerToolRun mst cst broken queue serverName toolName args =
        (Except.ok (errObj ("Server " ++ serverName ++
          " not running or no client available")), [])) ∧
    (∀ (now : Int) (mst : ManagerState) (name : String) (info : ServerInfo),
      mst.servers.lookup name = some info → info.procAlive = false →
      ((getServerStatus now mst name).2).clients = mst.clients) ∧
    (∀ (mst : ManagerState) (cst : ClientState) (queue : List Json)
        (serverName toolName : String) (args : Option Json),
      mst.clients.contains serverName = true →
      (callServerToolRun mst cst false queue serverName toolName
          args).2.any Ev.isWrite = true) := by
  refine ⟨?_, ?_, ?_⟩
  · intro mst cst broken queue serverName toolName args h
    simp only [callServerToolRun]
    rw [if_neg (by simpa using h)]
  · intro now mst name info hl hd
    rw [getServerStatus_dead now mst name info hl hd]
    rfl
  · intro mst cst queue serverName toolName args h
    simp only [callServerToolRun]
    rw [if_pos h]
    exact callToolE_has_write cst toolName (some (fixedNormalizeArgs args)) _ queue

/-- C6 witness: a never-started name gets the immediate error with no
client interaction. -/
theorem c6_registry_gating_witness :
    callServerToolRun ⟨[], []⟩ initialClientState false [] "scheduler"
        "get_upcoming_meetings" none =
      (Except.ok (errObj "Server scheduler not running or no client available"),
       []) :=
  c6_registry_gating.1 ⟨[], []⟩ initialClientState false [] "scheduler"
    "get_upcoming_meetings" none rfl

/-- C7, counterexample: `stop_server` on an untracked name returns
`False` — the failure indicator, which the HTTP layer folds into
`"success": all(results)` — not the no-op success the claim states.
Both managers behave the same way. -/
theorem c7_counterexample :
    stopServer ⟨[], []⟩ "transcriber" = (false, ⟨[], []⟩) ∧
    enhancedStopServer ⟨[], []⟩ "transcriber" = (false, ⟨[], []⟩) := by
  exact ⟨by rfl, by rfl⟩

/-- C7 (amended): `stop_server` on an untracked name is a no-op on the
state but returns `False` (failure), in both
`FixedMCPServerManager.stop_server` and
`EnhancedMCPServerManager.stop_server`. -/
theorem c7_stop_untracked (st : ManagerState) (name : String)
    (h : st.servers.lookup name = none) :
    stopServer st name = (false, st) ∧
    enhancedStopServer st name = (false, st) := by
  refine ⟨?_, ?_⟩ <;> simp [stopServer, enhancedStopServer, h]

/-- C7 witness: the untracked no-op failure at a concrete state. -/
theorem c7_stop_untracked_witness :
    stopServer ⟨[], []⟩ "scheduler" = (false, ⟨[], []⟩) ∧
    enhancedStopServer ⟨[], []⟩ "scheduler" = (false, ⟨[], []⟩) :=
  c7_stop_untracked ⟨[], []⟩ "scheduler" rfl

/-- C8, counterexample: `EnhancedMCPServerManager.get_server_status`
(app.py, one of the claim's cited implementations) reports a dead
tracked process as not running but does NOT remove it from the tracked
set — the state is unchanged and the entry still present — and its
report also carries `pid`/`started_at` keys rather than being exactly
`\x7b"status": "stopped", "running": false\x7d`. -/
theorem c8_counterexample :
    (enhancedGetServerStatus 5 stDead "transcriber").2 = stDead ∧
    (stDead.servers.lookup "transcriber").isSome = true ∧
    Json.lookup (enhancedGetServerStatus 5 stDead "transcriber").1 "running" =
      some (Json.bool false) ∧
    Json.lookup (enhancedGetServerStatus 5 stDead "transcriber").1 "pid" =
      some (Json.num 123) := by
  exact ⟨by rfl, by rfl, by rfl, by rfl⟩

/-- C8 (amended): `FixedMCPServerManager.get_server_status` behaves as
claimed — a tracked server whose process has exited is reported exactly
`\x7b"status": "stopped", "running": false\x7d` and removed from the tracked
set, so a second query reports the same through the untracked path;
`EnhancedMCPServerManager.get_server_status` reports not-running but
leaves the entry tracked (see the counterexample). -/
theorem c8_status_self_heal (now : Int) (st : ManagerState) (name : String)
    (info : ServerInfo) (hnodup : (st.servers.map Prod.fst).Nodup)
    (hl : st.servers.lookup name = some info) (hd : info.procAlive = false) :
    getServerStatus now st name = (stoppedObj, cleanupServer st name) ∧
    ((cleanupServer st name).servers.lookup name) = none ∧
    getServerStatus now (cleanupServer st name) name =
      (stoppedObj, cleanupServer st name) := by
  have h2 : ((cleanupServer st name).servers.lookup name) = none :=
    lookup_eraseP_key hnodup
  exact ⟨getServerStatus_dead now st name info hl hd, h2,
         getServerStatus_untracked now _ name h2⟩

/-- C8 witness: the self-heal on a concrete dead tracked server. -/
theorem c8_status_self_heal_witness :
    getServerStatus 0 stDead "transcriber" =
      (stoppedObj, cleanupServer stDead "transcriber") ∧
    ((cleanupServer stDead "transcriber").servers.lookup "transcriber") = none ∧
    getServerStatus 0 (cleanupServer stDead "transcriber") "transcriber" =
      (stoppedObj, cleanupServer stDead "transcriber") :=
  c8_status_self_heal 0 stDead "transcriber" deadInfo (by simp [stDead]) rfl rfl

/-- C9: a matched response carrying an error payload is converted into
the discriminated result `\x7b"error": "MCP Error <code>: <message>"\x7d`
holding the remote code and message, with the source's defaults for
missing fields; this is a returned value, not a raised exception — the
call's outcome is always `Except.ok` (both in `FixedMCPClient.call_tool`
and in `MCPClient.call_tool`). -/
theorem c9_remote_error_result :
    (∀ (rid fuel : Nat) (kvs ekvs : List (String × Json)) (rest : List Json),
      Json.idEq (Json.obj kvs) rid = true →
      kvs.lookup "error" = some (Json.obj ekvs) →
      (waitLoopT rid (fuel + 1) (Json.obj kvs :: rest)).1 =
        WaitResult.remoteError ((ekvs.lookup "code").getD (Json.num (-32603)))
          ((ekvs.lookup "message").getD (Json.str "Unknown error"))) ∧
    (∀ (st : ClientState) (toolName : String) (arguments : Option Json)
        (timeout : Nat) (queue : List Json) (c m : Json),
      (waitLoopT (st.requestId + 1) timeout queue).1 =
          WaitResult.remoteError c m →
      (callToolE st toolName arguments timeout false queue).result =
        Except.ok (errObj (mcpErrorString c m))) ∧
    (∀ (st : ClientState) (toolName : String) (arguments : Option Json)
        (timeout : Nat) (queue : List Json) (c m : Json),
      appWaitLoop (st.requestId + 1) timeout queue =
          WaitResult.remoteError c m →
      (appCallToolE st toolName arguments timeout false queue).1 =
        Except.ok (errObj (mcpErrorString c m))) ∧
    (∀ (st : ClientState) (toolName : String) (arguments : Option Json)
        (timeout : Nat) (broken : Bool) (queue : List Json),
      ((callToolE st toolName arguments timeout broken queue).result).isOk =
        true) :=
  ⟨waitLoopT_remoteError, callToolE_remoteErrorResult,
   appCallToolE_remoteErrorResult, callToolE_result_isOk⟩

/-- C9 witness: a concrete error response becomes the formatted error
result. -/
theorem c9_remote_error_result_witness :
    (callToolE initialClientState "transcribe_audio_file" none 5 false
        [errResp]).result =
      Except.ok (errObj (mcpErrorString (Json.num (-32000)) (Json.str "boom"))) :=
  c9_remote_error_result.2.1 initialClientState "transcribe_audio_file" none 5
    [errResp] (Json.num (-32000)) (Json.str "boom") rfl

/-- C10, counterexample: the `BrokenPipeError` re-raised by
`_send_request` is caught by `call_tool`'s own `except Exception`
handler: the call returns normally (`Except.ok`, not `Except.error`) with
the `Communication error` dict built inside `call_tool`, and
`call_server_tool` passes that dict through unchanged — its own
`except`-conversion (which would produce a `Tool call error: ...` dict)
is never exercised.  So the fault does not propagate out of the call
operation as the claim states. -/
theorem c10_counterexample :
    (callToolE initialClientState "ping" none 30 true []).result =
      Except.ok (commErrorObj brokenPipeMsg) ∧
    (callServerToolRun stDead initialClientState true [] "transcriber"
        "ping" none).1 = Except.ok (commErrorObj brokenPipeMsg) := by
  exact ⟨by rfl, by rfl⟩

/-- C10 (amended): every error condition, including a stdin write fault
(broken pipe), is converted into an `\x7b"error": ...\x7d` result inside
`FixedMCPClient.call_tool` itself — no exception escapes to the caller —
and `FixedMCPServerManager.call_server_tool` therefore returns the
client-built `Communication error` dict unchanged for any name with a
client entry. -/
theorem c10_fault_containment :
    (∀ (st : ClientState) (toolName : String) (arguments : Option Json)
        (timeout : Nat) (broken : Bool) (queue : List Json),
      ((callToolE st toolName arguments timeout broken queue).result).isOk =
        true) ∧
    (∀ (st : ClientState) (toolName : String) (arguments : Option Json)
        (timeout : Nat) (queue : List Json),
      (callToolE st toolName arguments timeout true queue).result =
        Except.ok (commErrorObj brokenPipeMsg)) ∧
    (∀ (mst : ManagerState) (cst : ClientState) (queue : List Json)
        (serverName toolName : String) (args : Option Json),
      mst.clients.contains serverName = true →
      (callServerToolRun mst cst true queue serverName toolName args).1 =
        Except.ok (commErrorObj brokenPipeMsg)) := by
  refine ⟨callToolE_result_isOk, ?_, ?_⟩
  · intro st toolName arguments timeout queue
    exact callToolE_brokenPipe st toolName arguments timeout queue
  · intro mst cst queue serverName toolName args h
    simp only [callServerToolRun]
    rw [if_pos h]
    simp [callToolE_brokenPipe]

/-- C10 witness: the registry passes the client-built communication error
through for a tracked client. -/
theorem c10_fault_containment_witness :
    (callServerToolRun ⟨[], ["echo"]⟩ initialClientState true [] "echo"
        "ping" none).1 = Except.ok (commErrorObj brokenPipeMsg) :=
  c10_fault_containment.2.2 ⟨[], ["echo"]⟩ initialClientState [] "echo"
    "ping" none rfl

end MCP

